import Mathlib

/-!
Verification of the account-lockout authentication core
(`Lesson-3/login/auth.py`): data model, operations, and the spec's claims
about registration, login, lock evaluation, unlock, and persistence.

The Python module is embedded shallowly: the `AuthSystem` object becomes an
explicit state record, `time.time()` becomes an explicit `now : Nat`
parameter (epoch seconds), the SHA-256 primitive becomes an abstract
`hash : String → String` parameter (the code only ever compares hashes for
equality), and the JSON storage file becomes a `List (String × StoredUser)`
carried in the state, rewritten by `save_users`.
-/

namespace Auth

/-- In-memory account record (class `UserAccount` in `auth.py`). -/
structure UserAccount where
  username : String
  password_hash : String
  is_locked : Bool
  lock_until : Option Nat
  failed_attempts : Nat
deriving Repr, DecidableEq

/-- One serialized record of the JSON store. A field is `none` when its key
is absent from the stored object (`save_users` always writes all four keys;
`load_users` tolerates absent optional keys via `dict.get` defaults). -/
structure StoredUser where
  password_hash : String
  is_locked : Option Bool
  lock_until : Option (Option Nat)
  failed_attempts : Option Nat
deriving Repr, DecidableEq

/-- The `AuthSystem` state: configured lock duration in seconds
(`lock_duration_minutes * 60`), the in-memory `users` dict (association
list keyed by username, first occurrence wins), and the current content of
the storage file. -/
structure AuthSystem where
  lock_duration : Nat
  users : List (String × UserAccount)
  file : List (String × StoredUser)
deriving Repr, DecidableEq

/-- Dict lookup `self.users[username]` / `username in self.users`. -/
def lookupUser : List (String × UserAccount) → String → Option UserAccount
  | [], _ => none
  | (k, v) :: rest, u => if k = u then some v else lookupUser rest u

/-- Dict write `self.users[username] = account` (also models in-place
mutation of the account object stored under an existing key). -/
def setUser : List (String × UserAccount) → String → UserAccount → List (String × UserAccount)
  | [], u, a => [(u, a)]
  | (k, v) :: rest, u, a => if k = u then (k, a) :: rest else (k, v) :: setUser rest u a

/-- Lookup in serialized data (iteration order of a parsed JSON object). -/
def lookupStored : List (String × StoredUser) → String → Option StoredUser
  | [], _ => none
  | (k, v) :: rest, u => if k = u then some v else lookupStored rest u

/-- Serialization of one record, as written by `save_users`
(`auth.py` lines 64-71): every field is written explicitly. -/
def saveUser (a : UserAccount) : StoredUser :=
  { password_hash := a.password_hash
    is_locked := some a.is_locked
    lock_until := some a.lock_until
    failed_attempts := some a.failed_attempts }

/-- `save_users` (`auth.py` lines 62-74): overwrite the storage file with
the serialization of the full in-memory mapping. -/
def save_users (s : AuthSystem) : AuthSystem :=
  { s with file := s.users.map (fun p => (p.1, saveUser p.2)) }

/-- Deserialization of one record, as read by `load_users`
(`auth.py` lines 47-54): absent optional keys default to
`False` / `None` / `0` via `dict.get`. -/
def loadUser (username : String) (d : StoredUser) : UserAccount :=
  { username := username
    password_hash := d.password_hash
    is_locked := d.is_locked.getD false
    lock_until := d.lock_until.getD none
    failed_attempts := d.failed_attempts.getD 0 }

/-- `load_users` body for parseable data: insert each record into the
(initially empty) users dict in iteration order. -/
def load_users (data : List (String × StoredUser)) : List (String × UserAccount) :=
  data.foldl (fun acc p => setUser acc p.1 (loadUser p.1 p.2)) []

/-- Python truthiness of `account.lock_until` (a nullable numeric field):
`None` and `0` are falsy, any other number is truthy. -/
def lockUntilTruthy : Option Nat → Bool
  | none => false
  | some t => decide (t ≠ 0)

/-- `check_lock_status` (`auth.py` lines 128-161). Returns the new state
together with the `(is_locked, message)` pair the Python method returns;
the state changes exactly when the lazy-expiry branch runs. -/
def check_lock_status (s : AuthSystem) (username : String) (now : Nat) :
    AuthSystem × Bool × Option String :=
  match lookupUser s.users username with
  | none => (s, false, none)
  | some account =>
    if account.is_locked && lockUntilTruthy account.lock_until then
      let t := account.lock_until.getD 0
      if now < t then
        let remaining := t - now
        (s, true, some ("账户已被锁定，请在 " ++ toString (remaining / 60) ++ "分"
          ++ toString (remaining % 60) ++ "秒后重试"))
      else
        let a' : UserAccount :=
          { account with is_locked := false, lock_until := none, failed_attempts := 0 }
        (save_users { s with users := setUser s.users username a' }, false, none)
    else (s, false, none)

/-- `login` (`auth.py` lines 163-206). The re-lookup after
`check_lock_status` models Python's aliasing: `account` is the very object
the lazy-expiry branch mutates in place. -/
def login (s : AuthSystem) (hash : String → String) (username password : String) (now : Nat) :
    AuthSystem × Bool × String :=
  match lookupUser s.users username with
  | none => (s, false, "用户名或密码错误")
  | some _ =>
    let r := check_lock_status s username now
    if r.2.1 then (r.1, false, r.2.2.getD "")
    else
      match lookupUser r.1.users username with
      | none => (r.1, false, "用户名或密码错误")
      | some account =>
        if hash password = account.password_hash then
          (save_users { r.1 with
              users := setUser r.1.users username ({ account with failed_attempts := 0 }) },
           true, "登录成功")
        else
          let fa := account.failed_attempts + 1
          if 5 ≤ fa then
            let a' : UserAccount :=
              { account with
                failed_attempts := fa
                is_locked := true
                lock_until := some (now + r.1.lock_duration) }
            (save_users { r.1 with users := setUser r.1.users username a' },
             false, "登录失败次数过多，账户已被锁定10分钟")
          else
            let a' : UserAccount := { account with failed_attempts := fa }
            (save_users { r.1 with users := setUser r.1.users username a' },
             false, "用户名或密码错误，还剩" ++ toString (5 - fa) ++ "次尝试机会")

/-- `unlock_account` (`auth.py` lines 208-225): unconditional unlock of a
known identifier, no-op returning `false` for an unknown one. -/
def unlock_account (s : AuthSystem) (username : String) : AuthSystem × Bool :=
  match lookupUser s.users username with
  | none => (s, false)
  | some account =>
    let a' : UserAccount :=
      { account with is_locked := false, lock_until := none, failed_attempts := 0 }
    (save_users { s with users := setUser s.users username a' }, true)

/-- `register_user` (`auth.py` lines 96-126). -/
def register_user (s : AuthSystem) (hash : String → String) (username password : String) :
    AuthSystem × Bool × String :=
  if (lookupUser s.users username).isSome then (s, false, "用户名已存在")
  else if username.length < 3 then (s, false, "用户名至少需要3个字符")
  else if password.length < 6 then (s, false, "密码至少需要6个字符")
  else
    let a : UserAccount :=
      { username := username
        password_hash := hash password
        is_locked := false
        lock_until := none
        failed_attempts := 0 }
    (save_users { s with users := setUser s.users username a }, true, "用户注册成功")

/-- Result dictionary of `get_user_info`. -/
structure UserInfo where
  username : String
  is_locked : Bool
  failed_attempts : Nat
  lock_message : Option String
deriving Repr, DecidableEq

/-- `get_user_info` (`auth.py` lines 227-247); the re-lookup models the
aliasing of `account` across the `check_lock_status` call. -/
def get_user_info (s : AuthSystem) (username : String) (now : Nat) :
    AuthSystem × Option UserInfo :=
  match lookupUser s.users username with
  | none => (s, none)
  | some _ =>
    let r := check_lock_status s username now
    match lookupUser r.1.users username with
    | none => (r.1, none)
    | some account =>
      let info : UserInfo :=
        { username := account.username
          is_locked := r.2.1
          failed_attempts := account.failed_attempts
          lock_message := r.2.2 }
      (r.1, some info)

/-- The seeded accounts of `_create_default_users` (`auth.py` lines 76-94). -/
def defaultUsers (hash : String → String) : List (String × UserAccount) :=
  [("admin", ⟨"admin", hash "admin123", false, none, 0⟩),
   ("user1", ⟨"user1", hash "password1", false, none, 0⟩),
   ("user2", ⟨"user2", hash "password2", false, none, 0⟩)]



/-- Identity function used as a stand-in hashing primitive in concrete
scenarios (the engine only ever compares hash outputs for equality). -/
def idHash : String → String := fun p => p

/-- One-account store for concrete scenarios: `alice` fresh and unlocked,
with password digest `"secret"`. -/
def aliceStore : AuthSystem :=
  { lock_duration := 600
    users := [("alice", ⟨"alice", "secret", false, none, 0⟩)]
    file := [] }

/-- One-account store for concrete scenarios: `alice` locked until epoch
second 700 after five failures. -/
def lockedStore : AuthSystem :=
  { lock_duration := 600
    users := [("alice", ⟨"alice", "secret", true, some 700, 5⟩)]
    file := [] }

/-- Store holding a record flagged locked with no lock timestamp, as
`load_users` produces from data missing the `lock_until` key. -/
def ghostLockStore : AuthSystem :=
  { lock_duration := 600
    users := [("bob", ⟨"bob", "d", true, none, 3⟩)]
    file := [] }

/-- Store holding a record locked with the degenerate timestamp 0, as
loadable from stored data with `lock_until` equal to 0. -/
def zeroLockStore : AuthSystem :=
  { lock_duration := 600
    users := [("bob", ⟨"bob", "d", true, some 0, 3⟩)]
    file := [] }

/-- The "too many failures, locked for `<duration>` minutes" message in the
code's wording, rendered for a given configured duration in minutes.
Modelled from the spec: the spec requires the lock-failure message to state
the configured lock duration. -/
def lockMessageFor (minutes : Nat) : String :=
  "登录失败次数过多，账户已被锁定" ++ toString minutes ++ "分钟"

/-- Store configured with a 5-minute lock duration whose single account
`alice` already has 4 recorded failures. -/
def fiveMinStore : AuthSystem :=
  { lock_duration := 5 * 60
    users := [("alice", ⟨"alice", "secret", false, none, 4⟩)]
    file := [] }

/-- Repeated `login` calls with fixed credentials at the given sequence of
times; returns the final state and the `(flag, message)` results in order. -/
def loginTimes (hash : String → String) (s : AuthSystem) (u p : String) :
    List Nat → AuthSystem × List (Bool × String)
  | [] => (s, [])
  | now :: rest =>
    let r := login s hash u p now
    let r' := loginTimes hash r.1 u p rest
    (r'.1, r.2 :: r'.2)

/-- The engine operations a caller can invoke (used to quantify over
operation sequences). -/
inductive Op where
  | doRegister (username password : String)
  | doLogin (username password : String) (now : Nat)
  | doEvaluate (username : String) (now : Nat)
  | doUnlock (username : String)

/-- State transition of one operation (the state component of the
corresponding `auth.py` method). -/
def applyOp (hash : String → String) (s : AuthSystem) : Op → AuthSystem
  | .doRegister u p => (register_user s hash u p).1
  | .doLogin u p now => (login s hash u p now).1
  | .doEvaluate u now => (check_lock_status s u now).1
  | .doUnlock u => (unlock_account s u).1

/-- State after a sequence of operations. -/
def applyOps (hash : String → String) : AuthSystem → List Op → AuthSystem
  | s, [] => s
  | s, op :: rest => applyOps hash (applyOp hash s op) rest

/-- The lock invariant: every record flagged locked carries a lock
timestamp. -/
def LockedHasUntil (l : List (String × UserAccount)) : Prop :=
  ∀ q ∈ l, q.2.is_locked = true → q.2.lock_until.isSome = true

/-- Stored data whose `bob` entry is flagged locked but has no `lock_until`
key. -/
def c9data : List (String × StoredUser) := [("bob", ⟨"h", some true, none, some 5⟩)]

/-! ### Theorems -/

/-- Engine construction (`AuthSystem.__init__` + `load_users`,
`auth.py` lines 24-60): `some data` is an existing parseable storage file,
`none` is an absent file, which seeds and persists the default users. -/
def AuthSystem.create (hash : String → String) (lock_duration_minutes : Nat)
    (file : Option (List (String × StoredUser))) : AuthSystem :=
  match file with
  | some data =>
    { lock_duration := lock_duration_minutes * 60, users := load_users data, file := data }
  | none =>
    save_users { lock_duration := lock_duration_minutes * 60,
                 users := defaultUsers hash, file := [] }


/-! ### Basic lemmas about the dict operations and persistence -/

theorem lookupUser_setUser_self (users : List (String × UserAccount)) (u : String)
    (a : UserAccount) : lookupUser (setUser users u a) u = some a := by
  induction users with
  | nil => simp [setUser, lookupUser]
  | cons p rest ih =>
    obtain ⟨k, v⟩ := p
    by_cases hk : k = u
    · simp [setUser, lookupUser, hk]
    · simp [setUser, lookupUser, hk, ih]

theorem lookupUser_setUser_other (users : List (String × UserAccount)) (u v : String)
    (a : UserAccount) (hne : v ≠ u) :
    lookupUser (setUser users u a) v = lookupUser users v := by
  have hne' : u ≠ v := Ne.symm hne
  induction users with
  | nil => simp [setUser, lookupUser, hne']
  | cons p rest ih =>
    obtain ⟨k, w⟩ := p
    by_cases hk : k = u
    · subst hk
      simp [setUser, lookupUser, hne']
    · by_cases hv : k = v <;> simp [setUser, lookupUser, hk, hv, hne, ih]

theorem mem_setUser (users : List (String × UserAccount)) (u : String) (a : UserAccount)
    (p : String × UserAccount) (hp : p ∈ setUser users u a) : p.2 = a ∨ p ∈ users := by
  induction users with
  | nil =>
    simp [setUser] at hp
    subst hp
    exact Or.inl rfl
  | cons q rest ih =>
    obtain ⟨k, v⟩ := q
    by_cases hk : k = u
    · simp [setUser, hk] at hp
      rcases hp with h | h
      · exact Or.inl (by rw [h])
      · exact Or.inr (List.mem_cons_of_mem _ h)
    · simp only [setUser, if_neg hk, List.mem_cons] at hp
      rcases hp with h | h
      · exact Or.inr (by simp [h])
      · rcases ih h with h1 | h1
        · exact Or.inl h1
        · exact Or.inr (List.mem_cons_of_mem _ h1)

theorem setUser_eq_self (users : List (String × UserAccount)) (u : String) (a : UserAccount)
    (ha : lookupUser users u = some a) : setUser users u a = users := by
  induction users with
  | nil => simp [lookupUser] at ha
  | cons p rest ih =>
    obtain ⟨k, v⟩ := p
    by_cases hk : k = u
    · subst hk
      simp [lookupUser] at ha
      simp [setUser, ha]
    · simp [lookupUser, hk] at ha
      simp [setUser, hk, ih ha]

theorem save_users_users (s : AuthSystem) : (save_users s).users = s.users := rfl

theorem save_users_lock_duration (s : AuthSystem) :
    (save_users s).lock_duration = s.lock_duration := rfl

/-! ### Branch lemmas for the operations -/

/-- `check_lock_status` on an unknown identifier. -/
theorem check_lock_status_unknown (s : AuthSystem) (u : String) (now : Nat)
    (hu : lookupUser s.users u = none) : check_lock_status s u now = (s, false, none) := by
  simp [check_lock_status, hu]

/-- `check_lock_status` when the `is_locked and lock_until` guard is false:
pure no-op. -/
theorem check_lock_status_guard_false (s : AuthSystem) (u : String) (now : Nat)
    (a : UserAccount) (ha : lookupUser s.users u = some a)
    (hg : (a.is_locked && lockUntilTruthy a.lock_until) = false) :
    check_lock_status s u now = (s, false, none) := by
  simp [check_lock_status, ha, hg]

/-- `login` on an unknown identifier: fails with the generic message and
changes nothing. -/
theorem login_unknown (s : AuthSystem) (hash : String → String) (u p : String) (now : Nat)
    (hu : lookupUser s.users u = none) :
    login s hash u p now = (s, false, "用户名或密码错误") := by
  simp [login, hu]

/-- `login` with a wrong password below the threshold. -/
theorem login_wrong_below (s : AuthSystem) (hash : String → String) (u p : String) (now : Nat)
    (a : UserAccount) (ha : lookupUser s.users u = some a)
    (hg : (a.is_locked && lockUntilTruthy a.lock_until) = false)
    (hp : hash p ≠ a.password_hash) (hfa : a.failed_attempts + 1 < 5) :
    login s hash u p now =
      (save_users { s with
         users := setUser s.users u ({ a with failed_attempts := a.failed_attempts + 1 }) },
       false,
       "用户名或密码错误，还剩" ++ toString (5 - (a.failed_attempts + 1)) ++ "次尝试机会") := by
  have hcls := check_lock_status_guard_false s u now a ha hg
  have h5 : ¬ (5 ≤ a.failed_attempts + 1) := by omega
  simp [login, ha, hcls, hp, h5]

/-- `login` with a wrong password reaching the threshold: locks the account. -/
theorem login_wrong_locks (s : AuthSystem) (hash : String → String) (u p : String) (now : Nat)
    (a : UserAccount) (ha : lookupUser s.users u = some a)
    (hg : (a.is_locked && lockUntilTruthy a.lock_until) = false)
    (hp : hash p ≠ a.password_hash) (hfa : 5 ≤ a.failed_attempts + 1) :
    login s hash u p now =
      (save_users { s with
         users := setUser s.users u
           ({ a with failed_attempts := a.failed_attempts + 1, is_locked := true,
                     lock_until := some (now + s.lock_duration) }) },
       false, "登录失败次数过多，账户已被锁定10分钟") := by
  have hcls := check_lock_status_guard_false s u now a ha hg
  simp [login, ha, hcls, hp, hfa]

/-- `login` with the correct password on an account whose lock guard is
false: succeeds and resets the failure count. -/
theorem login_correct (s : AuthSystem) (hash : String → String) (u p : String) (now : Nat)
    (a : UserAccount) (ha : lookupUser s.users u = some a)
    (hg : (a.is_locked && lockUntilTruthy a.lock_until) = false)
    (hp : hash p = a.password_hash) :
    login s hash u p now =
      (save_users { s with users := setUser s.users u ({ a with failed_attempts := 0 }) },
       true, "登录成功") := by
  have hcls := check_lock_status_guard_false s u now a ha hg
  simp [login, ha, hcls, hp]

/-- `check_lock_status` on a currently locked account (`now` strictly
before the lock deadline): reports locked with the remaining-time message
and does not change the state. -/
theorem check_lock_status_locked (s : AuthSystem) (u : String) (now : Nat)
    (a : UserAccount) (t : Nat) (ha : lookupUser s.users u = some a)
    (hl : a.is_locked = true) (ht : a.lock_until = some t) (hnow : now < t) :
    check_lock_status s u now =
      (s, true, some ("账户已被锁定，请在 " ++ toString ((t - now) / 60) ++ "分"
        ++ toString ((t - now) % 60) ++ "秒后重试")) := by
  have ht0 : t ≠ 0 := by omega
  simp [check_lock_status, ha, hl, ht, lockUntilTruthy, ht0, hnow]

/-- `unlock_account` on a known identifier, as one equation. -/
theorem unlock_account_known (s : AuthSystem) (u : String) (a : UserAccount)
    (ha : lookupUser s.users u = some a) :
    unlock_account s u =
      (save_users { s with users := setUser s.users u ({ a with is_locked := false, lock_until := none, failed_attempts := 0 }) }, true) := by
  simp [unlock_account, ha]

/-- C1: the claim is false as stated: on the reference store, login for an
unknown identifier answers the bare generic message while login with a
wrong password for a known identifier appends a remaining-attempts count,
so the two messages are not identical. -/
theorem C1_counterexample :
    (login aliceStore idHash "bob" "pw" 0).2.2 = "用户名或密码错误" ∧
    (login aliceStore idHash "alice" "pw" 0).2.2 = "用户名或密码错误，还剩4次尝试机会" ∧
    (login aliceStore idHash "bob" "pw" 0).2.2 ≠ (login aliceStore idHash "alice" "pw" 0).2.2 := by
  refine ⟨by decide, by decide, by decide⟩

/-- C1 (amended): login on an unknown identifier fails with the generic
invalid-credentials message and leaves the state unchanged; login for a
known identifier with a wrong password (when no lock is in force and the
failure does not reach the threshold) fails with a message that extends the
same generic text by the remaining-attempt count, so the two failure
messages share the generic wording but are not identical. -/
theorem C1_amended_messages (s : AuthSystem) (hash : String → String)
    (u v p q : String) (now now' : Nat) (a : UserAccount)
    (hu : lookupUser s.users u = none)
    (hv : lookupUser s.users v = some a)
    (hg : (a.is_locked && lockUntilTruthy a.lock_until) = false)
    (hq : hash q ≠ a.password_hash)
    (hfa : a.failed_attempts + 1 < 5) :
    login s hash u p now = (s, false, "用户名或密码错误") ∧
    (login s hash v q now').2.1 = false ∧
    (login s hash v q now').2.2 =
      "用户名或密码错误，还剩" ++ toString (5 - (a.failed_attempts + 1)) ++ "次尝试机会" ∧
    (login s hash v q now').2.2 ≠ (login s hash u p now).2.2 := by
  have h1 := login_unknown s hash u p now hu
  have h2 := login_wrong_below s hash v q now' a hv hg hq hfa
  refine ⟨h1, by rw [h2], by rw [h2], ?_⟩
  rw [h1, h2]
  show ("用户名或密码错误，还剩" ++ toString (5 - (a.failed_attempts + 1)) ++ "次尝试机会") ≠
    "用户名或密码错误"
  have hcases : a.failed_attempts = 0 ∨ a.failed_attempts = 1 ∨
      a.failed_attempts = 2 ∨ a.failed_attempts = 3 := by omega
  rcases hcases with h | h | h | h <;> rw [h] <;> decide

/-- C1 (amended) at a concrete input: `aliceStore`, unknown `bob`, known
`alice` with wrong password. -/
theorem C1_amended_witness :
    lookupUser aliceStore.users "bob" = none ∧
    login aliceStore idHash "bob" "pw" 3 = (aliceStore, false, "用户名或密码错误") := by
  refine ⟨by decide, ?_⟩
  exact (C1_amended_messages aliceStore idHash "bob" "alice" "pw" "pw" 3 3
    ⟨"alice", "secret", false, none, 0⟩ (by decide) (by decide) (by decide)
    (by decide) (by decide)).1

/-- C3: login on a currently locked account (`now` strictly before
`lockUntil`) fails with the remaining-time lock message even when the
password is correct, and leaves the whole state (records and file)
unchanged. -/
theorem C3_locked_login_fails (s : AuthSystem) (hash : String → String) (u p : String)
    (now : Nat) (a : UserAccount) (t : Nat)
    (ha : lookupUser s.users u = some a) (hl : a.is_locked = true)
    (ht : a.lock_until = some t) (hnow : now < t)
    (hp : hash p = a.password_hash) :
    login s hash u p now =
      (s, false, "账户已被锁定，请在 " ++ toString ((t - now) / 60) ++ "分"
        ++ toString ((t - now) % 60) ++ "秒后重试") := by
  have hcls := check_lock_status_locked s u now a t ha hl ht hnow
  simp [login, ha, hcls]

/-- C3 at a concrete input: `alice` locked until 700, correct password at
time 100. -/
theorem C3_witness :
    login lockedStore idHash "alice" "secret" 100 =
      (lockedStore, false, "账户已被锁定，请在 " ++ toString ((700 - 100) / 60) ++ "分"
        ++ toString ((700 - 100) % 60) ++ "秒后重试") :=
  C3_locked_login_fails lockedStore idHash "alice" "secret" 100
    ⟨"alice", "secret", true, some 700, 5⟩ 700 (by decide) (by decide) (by decide)
    (by decide) (by decide)

/-- Second unlock of the same identifier returns the very same state: the
replaced record and the rewritten file coincide with the first result. -/
theorem unlock_account_idem (s : AuthSystem) (u : String) (a : UserAccount)
    (ha : lookupUser s.users u = some a) :
    unlock_account (unlock_account s u).1 u = ((unlock_account s u).1, true) := by
  have hk := unlock_account_known s u a ha
  rw [hk]
  have hlk : lookupUser (save_users { s with users := setUser s.users u ({ a with is_locked := false, lock_until := none, failed_attempts := 0 }) }).users u = some ({ a with is_locked := false, lock_until := none, failed_attempts := 0 }) := by
    simpa [save_users] using
      lookupUser_setUser_self s.users u ({ a with is_locked := false, lock_until := none, failed_attempts := 0 })
  have hk2 := unlock_account_known _ u _ hlk
  rw [hk2]
  have hset : setUser (setUser s.users u ({ a with is_locked := false, lock_until := none, failed_attempts := 0 })) u ({ a with is_locked := false, lock_until := none, failed_attempts := 0 }) = setUser s.users u ({ a with is_locked := false, lock_until := none, failed_attempts := 0 }) :=
    setUser_eq_self _ u _
      (lookupUser_setUser_self s.users u ({ a with is_locked := false, lock_until := none, failed_attempts := 0 }))
  simp only [save_users, hset]

/-- C5: unlock on an unknown identifier returns false and changes nothing;
unlock on a known identifier unconditionally produces an UNLOCKED record
with no lock timestamp and zero failures, touches no other record,
persists, returns true, and running it twice yields exactly the state of
running it once. -/
theorem C5_unlock (s : AuthSystem) (u : String) :
    (lookupUser s.users u = none → unlock_account s u = (s, false)) ∧
    (∀ a, lookupUser s.users u = some a →
      (unlock_account s u).2 = true ∧
      lookupUser (unlock_account s u).1.users u =
        some ({ a with is_locked := false, lock_until := none, failed_attempts := 0 }) ∧
      (∀ v, v ≠ u → lookupUser (unlock_account s u).1.users v = lookupUser s.users v) ∧
      (unlock_account s u).1.file =
        (unlock_account s u).1.users.map (fun q => (q.1, saveUser q.2)) ∧
      unlock_account (unlock_account s u).1 u = ((unlock_account s u).1, true)) := by
  constructor
  · intro hu
    simp [unlock_account, hu]
  · intro a ha
    have hk := unlock_account_known s u a ha
    refine ⟨by rw [hk], ?_, ?_, ?_, unlock_account_idem s u a ha⟩
    · rw [hk]
      simpa [save_users] using
        lookupUser_setUser_self s.users u ({ a with is_locked := false, lock_until := none, failed_attempts := 0 })
    · intro v hv
      rw [hk]
      simpa [save_users] using
        lookupUser_setUser_other s.users u v ({ a with is_locked := false, lock_until := none, failed_attempts := 0 }) hv
    · rw [hk]
      rfl

/-- C5 at a concrete input: unlocking the locked `alice` store. -/
theorem C5_witness :
    (unlock_account lockedStore "alice").2 = true ∧
    lookupUser (unlock_account lockedStore "alice").1.users "alice" =
      some ⟨"alice", "secret", false, none, 0⟩ ∧
    unlock_account (unlock_account lockedStore "alice").1 "alice" =
      ((unlock_account lockedStore "alice").1, true) := by
  have h := (C5_unlock lockedStore "alice").2 ⟨"alice", "secret", true, some 700, 5⟩ (by decide)
  exact ⟨h.1, h.2.1, h.2.2.2.2⟩

/-- `register_user` success branch as one equation. -/
theorem register_user_success (s : AuthSystem) (hash : String → String) (u p : String)
    (hu : lookupUser s.users u = none) (hul : ¬ u.length < 3) (hpl : ¬ p.length < 6) :
    register_user s hash u p =
      (save_users { s with users := setUser s.users u ⟨u, hash p, false, none, 0⟩ }, true,
       "用户注册成功") := by
  simp [register_user, hu, hul, hpl]

/-- C6: registration rejects a duplicate identifier, an identifier shorter
than 3 characters, and a password shorter than 6 characters, each without
any state change; otherwise it creates exactly one fresh UNLOCKED record
with zero failures, no lock timestamp and digest `hash password`, leaves
every other record alone, persists, and reports success. -/
theorem C6_register (s : AuthSystem) (hash : String → String) (u p : String) :
    (∀ a, lookupUser s.users u = some a →
        register_user s hash u p = (s, false, "用户名已存在")) ∧
    (lookupUser s.users u = none → u.length < 3 →
        register_user s hash u p = (s, false, "用户名至少需要3个字符")) ∧
    (lookupUser s.users u = none → ¬ u.length < 3 → p.length < 6 →
        register_user s hash u p = (s, false, "密码至少需要6个字符")) ∧
    (lookupUser s.users u = none → ¬ u.length < 3 → ¬ p.length < 6 →
      (register_user s hash u p).2 = (true, "用户注册成功") ∧
      lookupUser (register_user s hash u p).1.users u = some ⟨u, hash p, false, none, 0⟩ ∧
      (∀ v, v ≠ u → lookupUser (register_user s hash u p).1.users v = lookupUser s.users v) ∧
      (register_user s hash u p).1.file =
        (register_user s hash u p).1.users.map (fun q => (q.1, saveUser q.2))) := by
  refine ⟨?_, ?_, ?_, ?_⟩
  · intro a ha
    simp [register_user, ha]
  · intro hu hul
    simp [register_user, hu, hul]
  · intro hu hul hpl
    simp [register_user, hu, hul, hpl]
  · intro hu hul hpl
    have hk := register_user_success s hash u p hu hul hpl
    refine ⟨by rw [hk], ?_, ?_, by rw [hk]; rfl⟩
    · rw [hk]
      simpa [save_users] using lookupUser_setUser_self s.users u ⟨u, hash p, false, none, 0⟩
    · intro v hv
      rw [hk]
      simpa [save_users] using lookupUser_setUser_other s.users u v ⟨u, hash p, false, none, 0⟩ hv

/-- C6 at a concrete input: a fresh registration into the `alice` store. -/
theorem C6_witness :
    (register_user aliceStore idHash "bob" "longpass").2 = (true, "用户注册成功") ∧
    lookupUser (register_user aliceStore idHash "bob" "longpass").1.users "bob" =
      some ⟨"bob", idHash "longpass", false, none, 0⟩ ∧
    register_user aliceStore idHash "alice" "whatever" = (aliceStore, false, "用户名已存在") := by
  have h := (C6_register aliceStore idHash "bob" "longpass").2.2.2
    (by decide) (by decide) (by decide)
  exact ⟨h.1, h.2.1,
    (C6_register aliceStore idHash "alice" "whatever").1
      ⟨"alice", "secret", false, none, 0⟩ (by decide)⟩

/-- C10: a record whose lock flag is set but whose `lock_until` is `None`
is reported as not locked by `check_lock_status`, which changes nothing at
all (no unlock transition, no failure-count reset, no write to the file);
and `loadUser` produces exactly such records from stored data whose
`lock_until` key is absent while `is_locked` is stored true. -/
theorem C10_locked_no_timestamp (s : AuthSystem) (u : String) (now : Nat) (a : UserAccount)
    (ha : lookupUser s.users u = some a) (hl : a.is_locked = true)
    (ht : a.lock_until = none) :
    check_lock_status s u now = (s, false, none) ∧
    (∀ (name : String) (d : StoredUser), d.is_locked = some true → d.lock_until = none →
      (loadUser name d).is_locked = true ∧ (loadUser name d).lock_until = none) := by
  constructor
  · exact check_lock_status_guard_false s u now a ha (by simp [hl, ht, lockUntilTruthy])
  · intro name d h1 h2
    simp [loadUser, h1, h2]

/-- C10 at a concrete input. -/
theorem C10_witness :
    check_lock_status ghostLockStore "bob" 999999 = (ghostLockStore, false, none) :=
  (C10_locked_no_timestamp ghostLockStore "bob" 999999 ⟨"bob", "d", true, none, 3⟩
    (by decide) (by decide) (by decide)).1

/-- `check_lock_status` expiry branch: locked with a nonzero (hence truthy)
`lock_until` not in the future. -/
theorem check_lock_status_expired (s : AuthSystem) (u : String) (now : Nat)
    (a : UserAccount) (t : Nat) (ha : lookupUser s.users u = some a)
    (hl : a.is_locked = true) (ht : a.lock_until = some t) (ht0 : t ≠ 0) (hnow : t ≤ now) :
    check_lock_status s u now =
      (save_users { s with users := setUser s.users u ({ a with is_locked := false, lock_until := none, failed_attempts := 0 }) }, false, none) := by
  have hnl : ¬ now < t := by omega
  simp [check_lock_status, ha, hl, ht, lockUntilTruthy, ht0, hnl]

/-- C4 (amended, to a nonzero lock timestamp): on a locked account whose
`lock_until = t` satisfies `0 < t ≤ now`, the lazy-expiry transition fires:
`check_lock_status` reports `(false, none)`, the record becomes UNLOCKED
with `lock_until` cleared and the failure count reset, no other record is
touched, the store is persisted; the same transition is observed through
`get_user_info` (reporting not-locked with zero failures) and through
`login`, where a correct password then succeeds on the freshly unlocked
record. -/
theorem C4_amended_expiry (s : AuthSystem) (hash : String → String) (u p : String)
    (now : Nat) (a : UserAccount) (t : Nat)
    (ha : lookupUser s.users u = some a) (hl : a.is_locked = true)
    (ht : a.lock_until = some t) (ht0 : t ≠ 0) (hnow : t ≤ now)
    (hp : hash p = a.password_hash) :
    (check_lock_status s u now).2 = (false, none) ∧
    lookupUser (check_lock_status s u now).1.users u =
      some ({ a with is_locked := false, lock_until := none, failed_attempts := 0 }) ∧
    (∀ v, v ≠ u → lookupUser (check_lock_status s u now).1.users v = lookupUser s.users v) ∧
    (check_lock_status s u now).1.file =
      (check_lock_status s u now).1.users.map (fun q => (q.1, saveUser q.2)) ∧
    (get_user_info s u now).2 = some ⟨a.username, false, 0, none⟩ ∧
    lookupUser (get_user_info s u now).1.users u =
      some ({ a with is_locked := false, lock_until := none, failed_attempts := 0 }) ∧
    (login s hash u p now).2 = (true, "登录成功") ∧
    lookupUser (login s hash u p now).1.users u =
      some ({ a with is_locked := false, lock_until := none, failed_attempts := 0 }) := by
  have hcls := check_lock_status_expired s u now a t ha hl ht ht0 hnow
  have hlk1 : lookupUser (save_users { s with users := setUser s.users u ({ a with is_locked := false, lock_until := none, failed_attempts := 0 }) }).users u = some ({ a with is_locked := false, lock_until := none, failed_attempts := 0 }) := by
    simpa [save_users] using
      lookupUser_setUser_self s.users u ({ a with is_locked := false, lock_until := none, failed_attempts := 0 })
  refine ⟨by rw [hcls], ?_, ?_, by rw [hcls]; rfl, ?_, ?_, ?_, ?_⟩
  · rw [hcls]
    exact hlk1
  · intro v hv
    rw [hcls]
    simpa [save_users] using
      lookupUser_setUser_other s.users u v ({ a with is_locked := false, lock_until := none, failed_attempts := 0 }) hv
  · simp [get_user_info, ha, hcls, hlk1]
  · simp [get_user_info, ha, hcls, hlk1]
  · simp [login, ha, hcls, hlk1, hp]
  · simp only [login, ha, hcls, hlk1]
    simp [hp, save_users, lookupUser_setUser_self,
      setUser_eq_self _ u _ (lookupUser_setUser_self s.users u ({ a with is_locked := false, lock_until := none, failed_attempts := 0 }))]

/-- C4: the claim is false as stated: `bob` is LOCKED with
`lockUntil = 0 ≤ now`, yet `check_lock_status` performs no transition at
all — it returns `(false, none)` with the state (record still LOCKED,
failure count still 3, file untouched) unchanged, because Python's
`if account.is_locked and account.lock_until:` treats the timestamp 0 as
falsy. -/
theorem C4_counterexample :
    lookupUser zeroLockStore.users "bob" = some ⟨"bob", "d", true, some 0, 3⟩ ∧
    check_lock_status zeroLockStore "bob" 100 = (zeroLockStore, false, none) ∧
    lookupUser (check_lock_status zeroLockStore "bob" 100).1.users "bob" =
      some ⟨"bob", "d", true, some 0, 3⟩ := by
  refine ⟨by decide, by decide, by decide⟩

/-- C4 (amended) at a concrete input: `alice` locked until 700, evaluated
at time 900. -/
theorem C4_witness :
    (check_lock_status lockedStore "alice" 900).2 = (false, none) ∧
    lookupUser (check_lock_status lockedStore "alice" 900).1.users "alice" =
      some ⟨"alice", "secret", false, none, 0⟩ ∧
    (login lockedStore idHash "alice" "secret" 900).2 = (true, "登录成功") := by
  have h := C4_amended_expiry lockedStore idHash "alice" "secret" 900
    ⟨"alice", "secret", true, some 700, 5⟩ 700 (by decide) (by decide) (by decide)
    (by decide) (by decide) (by decide)
  exact ⟨h.1, h.2.1, h.2.2.2.2.2.2.1⟩

/-- C8: with the lock duration configured to 5 minutes, the threshold
failure locks the account until `now + 300` seconds, yet the returned
message still claims a 10-minute lock (`auth.py` line 200 hard-codes
"10分钟" in an f-string with no placeholder), which differs from the same
message rendered with the configured 5 minutes. -/
theorem C8_hardcoded_duration :
    (login fiveMinStore idHash "alice" "wrong" 1000).2.2 = lockMessageFor 10 ∧
    lookupUser (login fiveMinStore idHash "alice" "wrong" 1000).1.users "alice" =
      some ⟨"alice", "secret", true, some (1000 + 5 * 60), 5⟩ ∧
    lockMessageFor 10 ≠ lockMessageFor 5 := by
  refine ⟨by decide, by decide, by decide⟩

/-- Inserting a fresh key into the users dict appends it. -/
theorem setUser_append_of_not_mem (l : List (String × UserAccount)) (u : String)
    (a : UserAccount) (h : u ∉ l.map Prod.fst) : setUser l u a = l ++ [(u, a)] := by
  induction l with
  | nil => rfl
  | cons q rest ih =>
    obtain ⟨k, v⟩ := q
    simp only [List.map_cons, List.mem_cons] at h
    push_neg at h
    have hk : ¬ k = u := fun he => h.1 he.symm
    simp [setUser, hk, ih h.2]

/-- `load_users`-style fold over key-distinct data appends the loaded
records to the accumulator in order. -/
theorem foldl_setUser_eq_append (data : List (String × StoredUser)) :
    ∀ acc : List (String × UserAccount),
      (∀ k, k ∈ data.map Prod.fst → k ∉ acc.map Prod.fst) →
      (data.map Prod.fst).Nodup →
      data.foldl (fun acc p => setUser acc p.1 (loadUser p.1 p.2)) acc =
        acc ++ data.map (fun p => (p.1, loadUser p.1 p.2)) := by
  induction data with
  | nil =>
    intro acc _ _
    simp
  | cons q rest ih =>
    intro acc hdisj hnodup
    obtain ⟨k, d⟩ := q
    simp only [List.map_cons, List.nodup_cons] at hnodup
    simp only [List.foldl_cons]
    have hknotin : k ∉ acc.map Prod.fst := hdisj k (by simp)
    rw [setUser_append_of_not_mem acc k (loadUser k d) hknotin]
    have hd : ∀ k', k' ∈ rest.map Prod.fst →
        k' ∉ (acc ++ [(k, loadUser k d)]).map Prod.fst := by
      intro k' hk'
      simp only [List.map_append, List.mem_append, List.map_cons, List.map_nil,
        List.mem_singleton, not_or]
      refine ⟨hdisj k' (by simp [hk']), ?_⟩
      intro he
      exact hnodup.1 (he ▸ hk')
    rw [ih (acc ++ [(k, loadUser k d)]) hd hnodup.2]
    simp

/-- Lookup commutes with a key-preserving map over the records. -/
theorem lookupUser_map (l : List (String × UserAccount))
    (f : String → UserAccount → UserAccount) (u : String) :
    lookupUser (l.map (fun p => (p.1, f p.1 p.2))) u = (lookupUser l u).map (f u) := by
  induction l with
  | nil => rfl
  | cons q rest ih =>
    obtain ⟨k, v⟩ := q
    by_cases hk : k = u
    · subst hk
      simp [lookupUser]
    · simp [lookupUser, hk, ih]

/-- C7: saving and then freshly loading a key-distinct mapping reproduces
every record field-for-field (digest, lock flag, lock timestamp, failure
count; the in-memory `username` field is re-derived from the key), maps no
identifier that was not there, and loading a stored record with the
optional `is_locked`, `lock_until` and `failed_attempts` keys absent
defaults them to UNLOCKED / none / 0. -/
theorem C7_round_trip (s : AuthSystem) (h : (s.users.map Prod.fst).Nodup) :
    (∀ u a, lookupUser s.users u = some a →
      lookupUser (load_users (save_users s).file) u = some ({ a with username := u })) ∧
    (∀ u, lookupUser s.users u = none →
      lookupUser (load_users (save_users s).file) u = none) ∧
    (∀ (name digest : String),
      loadUser name ⟨digest, none, none, none⟩ = ⟨name, digest, false, none, 0⟩) := by
  have hkeys : ((save_users s).file.map Prod.fst) = s.users.map Prod.fst := by
    show ((s.users.map (fun p => (p.1, saveUser p.2))).map Prod.fst) = s.users.map Prod.fst
    rw [List.map_map]
    rfl
  have h1 : load_users (save_users s).file =
      s.users.map (fun p => (p.1, (fun k (a : UserAccount) => { a with username := k }) p.1 p.2)) := by
    unfold load_users
    rw [foldl_setUser_eq_append _ [] (by simp) (by rw [hkeys]; exact h)]
    show (s.users.map (fun p => (p.1, saveUser p.2))).map (fun p => (p.1, loadUser p.1 p.2)) = _
    rw [List.map_map]
    rfl
  have hmain : ∀ u, lookupUser (load_users (save_users s).file) u =
      (lookupUser s.users u).map (fun a => { a with username := u }) := by
    intro u
    rw [h1]
    exact lookupUser_map s.users (fun k a => { a with username := k }) u
  refine ⟨?_, ?_, ?_⟩
  · intro u a ha
    rw [hmain u, ha]
    rfl
  · intro u hu
    rw [hmain u, hu]
    rfl
  · intro name digest
    rfl

/-- C7 at a concrete input: round-tripping the one-account `alice` store. -/
theorem C7_witness :
    (aliceStore.users.map Prod.fst).Nodup ∧
    lookupUser (load_users (save_users aliceStore).file) "alice" =
      some ⟨"alice", "secret", false, none, 0⟩ :=
  ⟨by decide,
   (C7_round_trip aliceStore (by decide)).1 "alice" ⟨"alice", "secret", false, none, 0⟩
     (by decide)⟩

/-- `loginTimes` splits over list append. -/
theorem loginTimes_append (hash : String → String) (u p : String) (ts1 ts2 : List Nat) :
    ∀ s : AuthSystem, loginTimes hash s u p (ts1 ++ ts2) =
      ((loginTimes hash (loginTimes hash s u p ts1).1 u p ts2).1,
       (loginTimes hash s u p ts1).2 ++ (loginTimes hash (loginTimes hash s u p ts1).1 u p ts2).2) := by
  induction ts1 with
  | nil =>
    intro s
    simp [loginTimes]
  | cons now rest ih =>
    intro s
    show ((loginTimes hash (login s hash u p now).1 u p (rest ++ ts2)).1,
        (login s hash u p now).2 ::
          (loginTimes hash (login s hash u p now).1 u p (rest ++ ts2)).2) = _
    rw [ih (login s hash u p now).1]
    rfl

/-- A run of wrong-password logins that stays below the threshold: each call
increments the failure count by one and answers with the remaining-attempts
message; the account stays as it was otherwise, and the configured lock
duration is untouched. -/
theorem loginTimes_wrong_run (hash : String → String) (u p : String) (times : List Nat) :
    ∀ (s : AuthSystem) (a : UserAccount),
      lookupUser s.users u = some a → a.is_locked = false → a.lock_until = none →
      hash p ≠ a.password_hash → a.failed_attempts + times.length < 5 →
      lookupUser (loginTimes hash s u p times).1.users u =
        some ({ a with failed_attempts := a.failed_attempts + times.length }) ∧
      (loginTimes hash s u p times).1.lock_duration = s.lock_duration ∧
      (loginTimes hash s u p times).2 = (List.range times.length).map
        (fun k => (false,
          "用户名或密码错误，还剩" ++ toString (5 - (a.failed_attempts + k + 1)) ++ "次尝试机会")) := by
  induction times with
  | nil =>
    intro s a ha hl ht hp hbound
    refine ⟨?_, rfl, rfl⟩
    simpa using ha
  | cons now rest ih =>
    intro s a ha hl ht hp hbound
    simp only [List.length_cons] at hbound
    have hg : (a.is_locked && lockUntilTruthy a.lock_until) = false := by
      simp [hl, ht, lockUntilTruthy]
    have hstep := login_wrong_below s hash u p now a ha hg hp (by omega)
    have ha1 : lookupUser (login s hash u p now).1.users u =
        some ({ a with failed_attempts := a.failed_attempts + 1 }) := by
      rw [hstep]
      simpa [save_users] using
        lookupUser_setUser_self s.users u ({ a with failed_attempts := a.failed_attempts + 1 })
    have hd1 : (login s hash u p now).1.lock_duration = s.lock_duration := by
      rw [hstep]
      rfl
    obtain ⟨ihl, ihd, ihm⟩ := ih (login s hash u p now).1
      ({ a with failed_attempts := a.failed_attempts + 1 }) ha1 hl ht hp (by simp; omega)
    refine ⟨?_, ?_, ?_⟩
    · show lookupUser (loginTimes hash (login s hash u p now).1 u p rest).1.users u = _
      rw [ihl]
      simp only [List.length_cons, Option.some.injEq, UserAccount.mk.injEq]
      exact ⟨trivial, trivial, trivial, trivial, by omega⟩
    · show (loginTimes hash (login s hash u p now).1 u p rest).1.lock_duration = _
      rw [ihd, hd1]
    · have hmsg : (login s hash u p now).2 =
          (false, "用户名或密码错误，还剩" ++ toString (5 - (a.failed_attempts + 1)) ++ "次尝试机会") := by
        rw [hstep]
      show (login s hash u p now).2 :: (loginTimes hash (login s hash u p now).1 u p rest).2 = _
      rw [hmsg, ihm]
      rw [List.length_cons, List.range_succ_eq_map, List.map_cons, List.map_map]
      congr 1
      apply List.map_congr_left
      intro k hk
      show (false, "用户名或密码错误，还剩" ++ toString (5 - (a.failed_attempts + 1 + k + 1)) ++ "次尝试机会") =
        (false, "用户名或密码错误，还剩" ++ toString (5 - (a.failed_attempts + (k + 1) + 1)) ++ "次尝试机会")
      rw [show a.failed_attempts + 1 + k + 1 = a.failed_attempts + (k + 1) + 1 from by omega]

/-- C2: starting from a freshly registered record (UNLOCKED, no lock
timestamp, failureCount 0), N consecutive wrong-password logins with N < 5
leave the record UNLOCKED with failureCount = N, with the k-th call
answering failure with `5 - k` remaining attempts; and when a 5th
consecutive wrong-password call is made at time `t5`, the record becomes
LOCKED with `lock_until = t5 + lock_duration`. -/
theorem C2_failure_counting (hash : String → String) (s : AuthSystem) (u p : String)
    (a : UserAccount) (times : List Nat)
    (ha : lookupUser s.users u = some a)
    (hl : a.is_locked = false) (ht : a.lock_until = none) (hf : a.failed_attempts = 0)
    (hp : hash p ≠ a.password_hash) :
    (times.length < 5 →
      lookupUser (loginTimes hash s u p times).1.users u =
        some ({ a with failed_attempts := times.length }) ∧
      (loginTimes hash s u p times).2 = (List.range times.length).map
        (fun k => (false, "用户名或密码错误，还剩" ++ toString (5 - (k + 1)) ++ "次尝试机会"))) ∧
    (∀ ts t5, times = ts ++ [t5] → times.length = 5 →
      lookupUser (loginTimes hash s u p times).1.users u =
        some ({ a with is_locked := true, lock_until := some (t5 + s.lock_duration), failed_attempts := 5 })) := by
  constructor
  · intro hlen
    obtain ⟨h1, h2, h3⟩ := loginTimes_wrong_run hash u p times s a ha hl ht hp (by omega)
    simp only [hf, Nat.zero_add] at h1 h3
    exact ⟨h1, h3⟩
  · intro ts t5 heq hlen
    subst heq
    have hts : ts.length = 4 := by
      simp only [List.length_append, List.length_cons, List.length_nil] at hlen
      omega
    obtain ⟨h41, h42, h43⟩ := loginTimes_wrong_run hash u p ts s a ha hl ht hp (by omega)
    rw [loginTimes_append hash u p ts [t5] s]
    show lookupUser (login (loginTimes hash s u p ts).1 hash u p t5).1.users u = _
    have hg4 : (({ a with failed_attempts := a.failed_attempts + ts.length } : UserAccount).is_locked
        && lockUntilTruthy ({ a with failed_attempts := a.failed_attempts + ts.length } : UserAccount).lock_until) = false := by
      simp [hl, ht, lockUntilTruthy]
    have hfa4 : 5 ≤ ({ a with failed_attempts := a.failed_attempts + ts.length } : UserAccount).failed_attempts + 1 := by
      show 5 ≤ a.failed_attempts + ts.length + 1
      omega
    have hlock := login_wrong_locks (loginTimes hash s u p ts).1 hash u p t5
      ({ a with failed_attempts := a.failed_attempts + ts.length }) h41 hg4 hp hfa4
    have hfin : lookupUser (login (loginTimes hash s u p ts).1 hash u p t5).1.users u =
        some ({ ({ a with failed_attempts := a.failed_attempts + ts.length } : UserAccount) with
          failed_attempts := ({ a with failed_attempts := a.failed_attempts + ts.length } : UserAccount).failed_attempts + 1
          is_locked := true
          lock_until := some (t5 + (loginTimes hash s u p ts).1.lock_duration) }) := by
      rw [hlock]
      simpa [save_users] using lookupUser_setUser_self (loginTimes hash s u p ts).1.users u _
    rw [hfin]
    simp only [Option.some.injEq, UserAccount.mk.injEq, h42]
    refine ⟨trivial, trivial, trivial, trivial, ?_⟩
    omega

/-- C2 at a concrete input: four wrong logins leave `alice` at 4 failures
and unlocked; a fifth (at time 50) locks her until `50 + 600`. -/
theorem C2_witness :
    lookupUser (loginTimes idHash aliceStore "alice" "pw" [10, 20, 30, 50]).1.users "alice" =
      some ⟨"alice", "secret", false, none, 4⟩ ∧
    lookupUser (loginTimes idHash aliceStore "alice" "pw" [10, 20, 30, 40, 50]).1.users "alice" =
      some ⟨"alice", "secret", true, some (50 + 600), 5⟩ := by
  have h1 := (C2_failure_counting idHash aliceStore "alice" "pw"
    ⟨"alice", "secret", false, none, 0⟩ [10, 20, 30, 50] (by decide) (by decide) (by decide)
    (by decide) (by decide)).1 (by decide)
  have h2 := (C2_failure_counting idHash aliceStore "alice" "pw"
    ⟨"alice", "secret", false, none, 0⟩ [10, 20, 30, 40, 50] (by decide) (by decide) (by decide)
    (by decide) (by decide)).2 [10, 20, 30, 40] 50 rfl (by decide)
  exact ⟨h1.1, h2⟩

theorem lockedHasUntil_setUser {l : List (String × UserAccount)} {u : String}
    {a : UserAccount} (h : LockedHasUntil l)
    (ha : a.is_locked = true → a.lock_until.isSome = true) :
    LockedHasUntil (setUser l u a) := by
  intro q hq hlq
  rcases mem_setUser l u a q hq with he | hm
  · rw [he] at hlq ⊢
    exact ha hlq
  · exact h q hm hlq

theorem lookupUser_mem (l : List (String × UserAccount)) (u : String) (a : UserAccount)
    (h : lookupUser l u = some a) : (u, a) ∈ l := by
  induction l with
  | nil => simp [lookupUser] at h
  | cons q rest ih =>
    obtain ⟨k, v⟩ := q
    by_cases hk : k = u
    · subst hk
      simp [lookupUser] at h
      simp [h]
    · simp [lookupUser, hk] at h
      exact List.mem_cons_of_mem _ (ih h)

/-- The state of `check_lock_status` is either untouched or the persisted
store with the looked-up record replaced by its unlocked reset. -/
theorem check_lock_status_state (s : AuthSystem) (u : String) (now : Nat) :
    (check_lock_status s u now).1 = s ∨
    ∃ a, lookupUser s.users u = some a ∧
      (check_lock_status s u now).1 = save_users { s with users := setUser s.users u ({ a with is_locked := false, lock_until := none, failed_attempts := 0 }) } := by
  cases hlu : lookupUser s.users u with
  | none => left; simp [check_lock_status, hlu]
  | some a =>
    by_cases hg : a.is_locked = true ∧ lockUntilTruthy a.lock_until = true
    · by_cases hn : now < a.lock_until.getD 0
      · left
        simp [check_lock_status, hlu, hg, hn]
      · right
        refine ⟨a, rfl, ?_⟩
        simp [check_lock_status, hlu, hg, hn]
    · left
      simp [check_lock_status, hlu, hg]

/-- When `check_lock_status` reports locked, it has not touched the state. -/
theorem check_lock_status_locked_state (s : AuthSystem) (u : String) (now : Nat)
    (h : (check_lock_status s u now).2.1 = true) : (check_lock_status s u now).1 = s := by
  cases hlu : lookupUser s.users u with
  | none => simp [check_lock_status, hlu]
  | some a =>
    by_cases hg : a.is_locked = true ∧ lockUntilTruthy a.lock_until = true
    · by_cases hn : now < a.lock_until.getD 0
      · simp [check_lock_status, hlu, hg, hn]
      · exfalso
        simp [check_lock_status, hlu, hg, hn] at h
    · simp [check_lock_status, hlu, hg]

/-- The users mapping after `login`: untouched, or as left by
`check_lock_status`, or with exactly the attempted record replaced by the
success reset, the lock stamp, or the failure increment. -/
theorem login_users_shape (s : AuthSystem) (hash : String → String) (v p : String) (now : Nat) :
    (login s hash v p now).1.users = s.users ∨
    (login s hash v p now).1.users = (check_lock_status s v now).1.users ∨
    ∃ a1, lookupUser (check_lock_status s v now).1.users v = some a1 ∧
      ((login s hash v p now).1.users = setUser (check_lock_status s v now).1.users v ({ a1 with failed_attempts := 0 }) ∨
       (login s hash v p now).1.users = setUser (check_lock_status s v now).1.users v ({ a1 with failed_attempts := a1.failed_attempts + 1, is_locked := true, lock_until := some (now + (check_lock_status s v now).1.lock_duration) }) ∨
       (login s hash v p now).1.users = setUser (check_lock_status s v now).1.users v ({ a1 with failed_attempts := a1.failed_attempts + 1 })) := by
  cases hlu : lookupUser s.users v with
  | none =>
    left
    simp [login, hlu]
  | some a0 =>
    by_cases hlk : (check_lock_status s v now).2.1 = true
    · right; left
      simp [login, hlu, hlk]
    · cases hlu1 : lookupUser (check_lock_status s v now).1.users v with
      | none =>
        right; left
        simp [login, hlu, hlk, hlu1]
      | some a1 =>
        by_cases hpw : hash p = a1.password_hash
        · right; right
          refine ⟨a1, rfl, Or.inl ?_⟩
          simp [login, hlu, hlk, hlu1, hpw, save_users]
        · by_cases hfa : 5 ≤ a1.failed_attempts + 1
          · right; right
            refine ⟨a1, rfl, Or.inr (Or.inl ?_)⟩
            simp [login, hlu, hlk, hlu1, hpw, hfa, save_users]
          · right; right
            refine ⟨a1, rfl, Or.inr (Or.inr ?_)⟩
            simp [login, hlu, hlk, hlu1, hpw, hfa, save_users]

/-- The state of `register_user`: untouched on any failure, or the
persisted store extended with the one fresh record. -/
theorem register_user_state (s : AuthSystem) (hash : String → String) (v pw : String) :
    (register_user s hash v pw).1 = s ∨
    ((register_user s hash v pw).1 =
       save_users { s with users := setUser s.users v ⟨v, hash pw, false, none, 0⟩ } ∧
     lookupUser s.users v = none) := by
  by_cases h1 : (lookupUser s.users v).isSome
  · left
    simp [register_user, h1]
  · by_cases h2 : v.length < 3
    · left
      simp [register_user, h1, h2]
    · by_cases h3 : pw.length < 6
      · left
        simp [register_user, h1, h2, h3]
      · right
        refine ⟨by simp [register_user, h1, h2, h3], ?_⟩
        cases hopt : lookupUser s.users v with
        | none => rfl
        | some x => exact absurd (by simp [hopt]) h1

/-- The state of `unlock_account`: untouched on an unknown identifier, or
the persisted store with the record force-unlocked. -/
theorem unlock_account_state (s : AuthSystem) (v : String) :
    (unlock_account s v).1 = s ∨
    ∃ b, lookupUser s.users v = some b ∧
      (unlock_account s v).1 = save_users { s with users := setUser s.users v ({ b with is_locked := false, lock_until := none, failed_attempts := 0 }) } := by
  cases hlv : lookupUser s.users v with
  | none =>
    left
    simp [unlock_account, hlv]
  | some b =>
    right
    refine ⟨b, rfl, ?_⟩
    simp [unlock_account, hlv]

/-- `check_lock_status` never changes records under other identifiers. -/
theorem check_lock_status_lookup_other (s : AuthSystem) (v : String) (now : Nat)
    (w : String) (hw : w ≠ v) :
    lookupUser (check_lock_status s v now).1.users w = lookupUser s.users w := by
  rcases check_lock_status_state s v now with h | ⟨b, hb, h⟩
  · rw [h]
  · rw [h]
    show lookupUser (setUser s.users v _) w = _
    exact lookupUser_setUser_other s.users v w _ hw

/-- `login` never changes records under other identifiers. -/
theorem login_lookup_other (s : AuthSystem) (hash : String → String) (v p : String)
    (now : Nat) (w : String) (hw : w ≠ v) :
    lookupUser (login s hash v p now).1.users w = lookupUser s.users w := by
  have hcls := check_lock_status_lookup_other s v now w hw
  rcases login_users_shape s hash v p now with h | h | ⟨a1, ha1, h | h | h⟩ <;> rw [h] <;>
    first
      | rfl
      | exact hcls
      | (rw [lookupUser_setUser_other _ v w _ hw]; exact hcls)

theorem check_lock_status_preserves (s : AuthSystem) (u : String) (now : Nat)
    (h : LockedHasUntil s.users) : LockedHasUntil (check_lock_status s u now).1.users := by
  rcases check_lock_status_state s u now with hc | ⟨b, hb, hc⟩ <;> rw [hc]
  · exact h
  · exact lockedHasUntil_setUser h (by simp)

theorem login_preserves (s : AuthSystem) (hash : String → String) (u p : String) (now : Nat)
    (h : LockedHasUntil s.users) : LockedHasUntil (login s hash u p now).1.users := by
  have hc := check_lock_status_preserves s u now h
  rcases login_users_shape s hash u p now with hs | hs | ⟨a1, ha1, hs | hs | hs⟩ <;> rw [hs]
  · exact h
  · exact hc
  · exact lockedHasUntil_setUser hc (fun hx => hc _ (lookupUser_mem _ u a1 ha1) hx)
  · exact lockedHasUntil_setUser hc (by simp)
  · exact lockedHasUntil_setUser hc (fun hx => hc _ (lookupUser_mem _ u a1 ha1) hx)

theorem register_user_preserves (s : AuthSystem) (hash : String → String) (v pw : String)
    (h : LockedHasUntil s.users) : LockedHasUntil (register_user s hash v pw).1.users := by
  rcases register_user_state s hash v pw with hs | ⟨hs, _⟩ <;> rw [hs]
  · exact h
  · exact lockedHasUntil_setUser h (by simp)

theorem unlock_account_preserves (s : AuthSystem) (v : String)
    (h : LockedHasUntil s.users) : LockedHasUntil (unlock_account s v).1.users := by
  rcases unlock_account_state s v with hs | ⟨b, hb, hs⟩ <;> rw [hs]
  · exact h
  · exact lockedHasUntil_setUser h (by simp)

theorem applyOp_preserves (hash : String → String) (s : AuthSystem) (op : Op)
    (h : LockedHasUntil s.users) : LockedHasUntil (applyOp hash s op).users := by
  cases op with
  | doRegister v pw => exact register_user_preserves s hash v pw h
  | doLogin v pw now => exact login_preserves s hash v pw now h
  | doEvaluate v now => exact check_lock_status_preserves s v now h
  | doUnlock v => exact unlock_account_preserves s v h

theorem applyOps_preserves (hash : String → String) (ops : List Op) :
    ∀ s : AuthSystem, LockedHasUntil s.users → LockedHasUntil (applyOps hash s ops).users := by
  induction ops with
  | nil => intro s h; exact h
  | cons op rest ih => intro s h; exact ih _ (applyOp_preserves hash s op h)

theorem false_of_locked_eq {x y : UserAccount} (hxy : x = y)
    (hx : x.is_locked = false) (hy : y.is_locked = true) : False := by
  subst hxy
  rw [hx] at hy
  exact Bool.noConfusion hy

/-- A `login` call on an unlocked record that leaves it locked has stamped
`lock_until = now + lock_duration`. -/
theorem login_fresh_lock_self (s : AuthSystem) (hash : String → String) (u p : String)
    (now : Nat) (a a' : UserAccount)
    (ha : lookupUser s.users u = some a) (hl : a.is_locked = false)
    (ha' : lookupUser (login s hash u p now).1.users u = some a')
    (hl' : a'.is_locked = true) :
    a'.lock_until = some (now + s.lock_duration) := by
  have hdur : (check_lock_status s u now).1.lock_duration = s.lock_duration := by
    rcases check_lock_status_state s u now with hc | ⟨b, hb, hc⟩ <;> rw [hc]
    rfl
  have hex : ∃ a1, lookupUser (check_lock_status s u now).1.users u = some a1 ∧
      a1.is_locked = false := by
    rcases check_lock_status_state s u now with hc | ⟨b, hb, hc⟩
    · exact ⟨a, by rw [hc]; exact ha, hl⟩
    · refine ⟨{ b with is_locked := false, lock_until := none, failed_attempts := 0 }, ?_, rfl⟩
      rw [hc]
      show lookupUser (setUser s.users u _) u = _
      exact lookupUser_setUser_self s.users u _
  obtain ⟨a1, ha1, hl1⟩ := hex
  rcases login_users_shape s hash u p now with hs | hs | ⟨b1, hb1, hcase⟩
  · rw [hs, ha] at ha'
    exact (false_of_locked_eq (Option.some.inj ha') hl hl').elim
  · rw [hs, ha1] at ha'
    exact (false_of_locked_eq (Option.some.inj ha') hl1 hl').elim
  · have hb1a1 : b1 = a1 := Option.some.inj (hb1 ▸ ha1)
    subst hb1a1
    rcases hcase with hs | hs | hs
    · rw [hs, lookupUser_setUser_self] at ha'
      exact (false_of_locked_eq (Option.some.inj ha') hl1 hl').elim
    · rw [hs, lookupUser_setUser_self] at ha'
      obtain heq := Option.some.inj ha'
      rw [← heq]
      show some (now + (check_lock_status s u now).1.lock_duration) = _
      rw [hdur]
    · rw [hs, lookupUser_setUser_self] at ha'
      exact (false_of_locked_eq (Option.some.inj ha') hl1 hl').elim

/-- Only a `login` on the very identifier can turn an unlocked record into
a locked one, and it stamps `now + lock_duration`. -/
theorem applyOp_fresh_lock (hash : String → String) (s : AuthSystem) (u : String)
    (a a' : UserAccount) (op : Op)
    (ha : lookupUser s.users u = some a) (hl : a.is_locked = false)
    (ha' : lookupUser (applyOp hash s op).users u = some a') (hl' : a'.is_locked = true) :
    ∃ pw now, op = Op.doLogin u pw now ∧ a'.lock_until = some (now + s.lock_duration) := by
  cases op with
  | doRegister v pw =>
    exfalso
    simp only [applyOp] at ha'
    rcases register_user_state s hash v pw with hs | ⟨hs, hnone⟩
    · rw [hs, ha] at ha'
      exact false_of_locked_eq (Option.some.inj ha') hl hl'
    · by_cases hv : v = u
      · subst hv
        rw [hnone] at ha
        exact Option.noConfusion ha
      · rw [hs] at ha'
        rw [show (save_users { s with users := setUser s.users v ⟨v, hash pw, false, none, 0⟩ }).users = setUser s.users v ⟨v, hash pw, false, none, 0⟩ from rfl] at ha'
        rw [lookupUser_setUser_other s.users v u _ (Ne.symm hv), ha] at ha'
        exact false_of_locked_eq (Option.some.inj ha') hl hl'
  | doLogin v pw now =>
    simp only [applyOp] at ha'
    by_cases hv : v = u
    · subst hv
      exact ⟨pw, now, rfl, login_fresh_lock_self s hash v pw now a a' ha hl ha' hl'⟩
    · exfalso
      rw [login_lookup_other s hash v pw now u (Ne.symm hv), ha] at ha'
      exact false_of_locked_eq (Option.some.inj ha') hl hl'
  | doEvaluate v now =>
    exfalso
    simp only [applyOp] at ha'
    rcases check_lock_status_state s v now with hs | ⟨b, hb, hs⟩
    · rw [hs, ha] at ha'
      exact false_of_locked_eq (Option.some.inj ha') hl hl'
    · rw [hs] at ha'
      by_cases hv : v = u
      · subst hv
        rw [show (save_users { s with users := setUser s.users v ({ b with is_locked := false, lock_until := none, failed_attempts := 0 }) }).users = setUser s.users v ({ b with is_locked := false, lock_until := none, failed_attempts := 0 }) from rfl] at ha'
        rw [lookupUser_setUser_self] at ha'
        exact false_of_locked_eq (Option.some.inj ha') rfl hl'
      · rw [show (save_users { s with users := setUser s.users v ({ b with is_locked := false, lock_until := none, failed_attempts := 0 }) }).users = setUser s.users v ({ b with is_locked := false, lock_until := none, failed_attempts := 0 }) from rfl] at ha'
        rw [lookupUser_setUser_other s.users v u _ (Ne.symm hv), ha] at ha'
        exact false_of_locked_eq (Option.some.inj ha') hl hl'
  | doUnlock v =>
    exfalso
    simp only [applyOp] at ha'
    rcases unlock_account_state s v with hs | ⟨b, hb, hs⟩
    · rw [hs, ha] at ha'
      exact false_of_locked_eq (Option.some.inj ha') hl hl'
    · rw [hs] at ha'
      by_cases hv : v = u
      · subst hv
        rw [show (save_users { s with users := setUser s.users v ({ b with is_locked := false, lock_until := none, failed_attempts := 0 }) }).users = setUser s.users v ({ b with is_locked := false, lock_until := none, failed_attempts := 0 }) from rfl] at ha'
        rw [lookupUser_setUser_self] at ha'
        exact false_of_locked_eq (Option.some.inj ha') rfl hl'
      · rw [show (save_users { s with users := setUser s.users v ({ b with is_locked := false, lock_until := none, failed_attempts := 0 }) }).users = setUser s.users v ({ b with is_locked := false, lock_until := none, failed_attempts := 0 }) from rfl] at ha'
        rw [lookupUser_setUser_other s.users v u _ (Ne.symm hv), ha] at ha'
        exact false_of_locked_eq (Option.some.inj ha') hl hl'

/-- C9 (amended to runs from an invariant-satisfying start): any sequence
of register / login / evaluateLockState / unlock operations applied to a
state in which every LOCKED record carries a lock timestamp preserves that
invariant; and whenever a single operation turns a present, unlocked record
into a locked one, that operation is a login on that very identifier at
some time `now`, and it stamps `lock_until = now + lock_duration`, which is
strictly in the future whenever the configured lock duration is positive.
(Loading arbitrary backing data can, by contrast, produce a LOCKED record
with no lock timestamp at all — see the counterexample.) -/
theorem C9_lock_invariant (hash : String → String) :
    (∀ (s0 : AuthSystem) (ops : List Op), LockedHasUntil s0.users →
      LockedHasUntil (applyOps hash s0 ops).users) ∧
    (∀ (s : AuthSystem) (u : String) (a a' : UserAccount) (op : Op),
      lookupUser s.users u = some a → a.is_locked = false →
      lookupUser (applyOp hash s op).users u = some a' → a'.is_locked = true →
      ∃ pw now, op = Op.doLogin u pw now ∧
        a'.lock_until = some (now + s.lock_duration) ∧
        (0 < s.lock_duration → now < now + s.lock_duration)) := by
  constructor
  · intro s0 ops h
    exact applyOps_preserves hash ops s0 h
  · intro s u a a' op ha hl ha' hl'
    obtain ⟨pw, now, hop, hlu⟩ := applyOp_fresh_lock hash s u a a' op ha hl ha' hl'
    exact ⟨pw, now, hop, hlu, fun hd => by omega⟩

/-- C9: the claim as stated is false: constructing the engine from backing
data whose record is flagged locked but carries no `lock_until` yields a
reachable state with a LOCKED record whose `lockUntil` is not set. -/
theorem C9_counterexample :
    lookupUser (AuthSystem.create idHash 10 (some c9data)).users "bob" =
      some ⟨"bob", "h", true, none, 5⟩ ∧
    (⟨"bob", "h", true, none, 5⟩ : UserAccount).is_locked = true ∧
    (⟨"bob", "h", true, none, 5⟩ : UserAccount).lock_until = none := by
  refine ⟨by decide, rfl, rfl⟩

/-- C9 (amended) at a concrete input: the invariant holds after a wrong
login followed by an unlock on the fresh `alice` store. -/
theorem C9_witness :
    LockedHasUntil aliceStore.users ∧
    LockedHasUntil (applyOps idHash aliceStore
      [Op.doLogin "alice" "pw" 1, Op.doUnlock "alice"]).users := by
  have h0 : LockedHasUntil aliceStore.users := by
    unfold LockedHasUntil
    decide
  exact ⟨h0, (C9_lock_invariant idHash).1 aliceStore
    [Op.doLogin "alice" "pw" 1, Op.doUnlock "alice"] h0⟩

end Auth

